import Mathlib

/-!
Verification of the `verify` schema-validation library against its
specification.

The development shallowly embeds the library's span model (`span.rs`),
error model (`impls/schemars/errors.rs`), the schema-conformance engine
(`impls/schemars/schema.rs`) together with the serde-driven value
traversal (`serde.rs`, specialised to the `KeySpans` span provider), and
the schema self-check pass (`impls/schemars/verify.rs`).

Conventions of the embedding:

* `Keys` (a span) is a list of string segments, as in `span.rs`.
* The engine's recursion through schema references is not structurally
  terminating in the source (a cyclic definition table recurses forever),
  so the conformance engine is embedded with an explicit fuel parameter:
  `validateLevel fuel` returns `none` exactly when the recursion depth
  exceeds `fuel`, and `some errs` when the source program would return
  with the error list `errs` (empty list = success).  Each recursion
  level is a plain, non-recursive step function applied to the previous
  level, mirroring the source functions one-to-one.
* The self-check pass recurses structurally over the schema tree and is
  embedded without fuel.
* The external `schemars` schema tree is modelled by the `Schema`
  inductive below with the exact fields the engine reads; external maps
  (`schemars::Map`, i.e. `BTreeMap`) are modelled as association lists in
  iteration order, and `BTreeSet<String>` as a duplicate-free list.
* The external `regex` crate is modelled by an explicit `RegexEngine`
  record (can a pattern compile, does a pattern match a string); all
  theorems about pattern behaviour are quantified over the engine.
* The external `DefaultHasher` is modelled by an explicit hash function
  parameter; the executable stand-in `hashLevel` is used for concrete
  runs.
-/

namespace VerifyLib

/-! ## Span model (`span.rs`) -/

/-- A span of consecutive string keys (`Keys` in `span.rs`). -/
abbrev Keys := List String

/-- `Keys::dotted`: the keys joined by dots. -/
def dotted (k : Keys) : String := String.intercalate "." k

/-- `SpanExt::combine` for `Option<T>` (`span.rs` lines 24-36): an
incoming `Some` span is appended to a present receiver or installed into
an absent one; an incoming `None` span resets the receiver to `None`.
The first argument is the receiver (`self`), the second the incoming
span. -/
def optCombine : Option Keys → Option Keys → Option Keys
  | some s, some newSpan => some (s ++ newSpan)
  | none, some newSpan => some newSpan
  | _, none => none

/-- Modelled from the spec: the `combined` helper on optional spans used
by `schema.rs` (e.g. `self.parent_span.combined(value.span())`), whose
defining module is not among the provided sources.  Spec section 4.2:
both present, concatenate; one present, keep the present one; both
absent, absent. -/
def combinedSpan : Option Keys → Option Keys → Option Keys
  | some a, some b => some (a ++ b)
  | some a, none => some a
  | none, some b => some b
  | none, none => none

/-! ## Schema model (external `schemars` crate, fields read by the engine) -/

/-- Schema provenance metadata (`schemars::schema::Metadata`, the fields
surfaced by the error model). -/
structure Metadata where
  title : Option String
  description : Option String

/-- `schemars::schema::InstanceType`. -/
inductive InstanceType where
  | null
  | boolean
  | object
  | array
  | number
  | string
  | integer
  deriving Repr, DecidableEq

/-- `schemars::schema::SingleOrVec`. -/
inductive SingleOrVec (α : Type) where
  | single (a : α)
  | vec (l : List α)

/-- Whether a `SingleOrVec<InstanceType>` mentions the given type. -/
def typeListed (s : SingleOrVec InstanceType) (t : InstanceType) : Bool :=
  match s with
  | .single x => x == t
  | .vec xs => xs.contains t

/-- The structured values traversed by the validation protocol:
primitives, sequences and maps, as walked by the serde data-model
adapter.  Map keys are strings (the adapter stringifies keys via
`KeySerializer`). -/
inductive Value where
  | bool (b : Bool)
  | int (n : Int)
  | str (s : String)
  | null
  | seq (xs : List Value)
  | map (es : List (String × Value))

/-- Numeric constraint group (`schemars` `NumberValidation`).  The source
stores `f64`; the embedding restricts to integers, which is sufficient
because the numeric leaf checks live in the source's missing macros
module and decide none of the claims. -/
structure NumberValidation where
  multipleOf : Option Int
  maximum : Option Int
  exclusiveMaximum : Option Int
  minimum : Option Int
  exclusiveMinimum : Option Int

/-- String constraint group (`schemars` `StringValidation`). -/
structure StringValidation where
  maxLength : Option Nat
  minLength : Option Nat
  pattern : Option String

/-- Subschema combinator group (`schemars` `SubschemaValidation`),
parametric in the schema type to close the recursion below. -/
structure SubschemaOf (α : Type) where
  allOf : Option (List α)
  anyOf : Option (List α)
  oneOf : Option (List α)
  notSchema : Option α
  ifSchema : Option α
  thenSchema : Option α
  elseSchema : Option α

/-- Array constraint group (`schemars` `ArrayValidation`). -/
structure ArrayOf (α : Type) where
  items : Option (SingleOrVec α)
  additionalItems : Option α
  maxItems : Option Nat
  minItems : Option Nat
  uniqueItems : Option Bool
  contains : Option α

/-- Object constraint group (`schemars` `ObjectValidation`). -/
structure ObjectOf (α : Type) where
  maxProperties : Option Nat
  minProperties : Option Nat
  required : List String
  properties : List (String × α)
  patternProperties : List (String × α)
  additionalProperties : Option α
  propertyNames : Option α

/-- A non-boolean schema node (`schemars` `SchemaObject`), parametric in
the schema type. -/
structure SchemaObjectOf (α : Type) where
  metadata : Option Metadata
  instanceType : Option (SingleOrVec InstanceType)
  enumValues : Option (List Value)
  number : Option NumberValidation
  stringVal : Option StringValidation
  array : Option (ArrayOf α)
  object : Option (ObjectOf α)
  subschemas : Option (SubschemaOf α)
  reference : Option String

/-- `schemars::schema::Schema`: a boolean leaf or an object node. -/
inductive Schema where
  | bool (b : Bool)
  | obj (o : SchemaObjectOf Schema)

abbrev SchemaObject := SchemaObjectOf Schema
abbrev Subschemas := SubschemaOf Schema
abbrev ArrayValidation := ArrayOf Schema
abbrev ObjectValidation := ObjectOf Schema

/-- The definitions table of a schema document (`schemars::Map<String,
Schema>` reachable from the root). -/
abbrev Defs := List (String × Schema)

/-- `schemars::schema::RootSchema`, the fields used by the engine. -/
structure RootSchema where
  schema : SchemaObject
  definitions : Defs

/-- First-match association-list lookup, modelling `Map::get`. -/
def lookupStr {α : Type} : List (String × α) → String → Option α
  | [], _ => none
  | (k, v) :: rest, key => if k == key then some v else lookupStr rest key

/-- The metadata of a schema: `None` for a boolean leaf, the node's
metadata otherwise (the pattern `match s { Schema::Object(o) =>
o.metadata.clone(), _ => None }` used throughout `schema.rs`). -/
def schemaMeta : Schema → Option Metadata
  | .bool _ => none
  | .obj o => o.metadata

/-! ## Error model (`impls/schemars/errors.rs`)

The source `Error` is a record `{ meta, span, value }` whose `value`
field is the `ErrorValue` enum; because `NoneValid` nests full error
collections, the embedding flattens the record into the constructors of
one inductive: each constructor carries the `meta` and `span` fields
first and the `ErrorValue` payload after. -/

/-- One validation error: schema provenance, span, and failure kind. -/
inductive VError where
  | notAllowed (meta : Option Metadata) (span : Option Keys)
  | missingDefinition (meta : Option Metadata) (span : Option Keys) (name : String)
  | invalidPattern (meta : Option Metadata) (span : Option Keys) (pat : String)
  | externalReference (meta : Option Metadata) (span : Option Keys) (r : String)
  | keyNotString (meta : Option Metadata) (span : Option Keys)
  | invalidType (meta : Option Metadata) (span : Option Keys)
      (expected : SingleOrVec InstanceType)
  | invalidEnumValue (meta : Option Metadata) (span : Option Keys)
      (expected : List Value)
  | notMultipleOf (meta : Option Metadata) (span : Option Keys) (multipleOf : Int)
  | lessThanExpected (meta : Option Metadata) (span : Option Keys)
      (min : Int) (exclusive : Bool)
  | moreThanExpected (meta : Option Metadata) (span : Option Keys)
      (max : Int) (exclusive : Bool)
  | noPatternMatch (meta : Option Metadata) (span : Option Keys) (pat : String)
  | tooLong (meta : Option Metadata) (span : Option Keys) (maxLength : Nat)
  | tooShort (meta : Option Metadata) (span : Option Keys) (minLength : Nat)
  | noneValid (meta : Option Metadata) (span : Option Keys) (exclusive : Bool)
      (schemas : List (Option Metadata)) (inner : List (List VError))
  | moreThanOneValid (meta : Option Metadata) (span : Option Keys)
      (schemas : List (Option Metadata)) (matched : List (Option Metadata))
  | validNot (meta : Option Metadata) (span : Option Keys)
      (matched : Option Metadata)
  | notUnique (meta : Option Metadata) (span : Option Keys)
      (first : Option Keys) (duplicate : Option Keys)
  | mustContain (meta : Option Metadata) (span : Option Keys)
      (schema : Option Metadata)
  | notEnoughItems (meta : Option Metadata) (span : Option Keys) (min : Nat)
  | tooManyItems (meta : Option Metadata) (span : Option Keys) (max : Nat)
  | notEnoughProperties (meta : Option Metadata) (span : Option Keys) (min : Nat)
  | tooManyProperties (meta : Option Metadata) (span : Option Keys) (max : Nat)
  | requiredProperty (meta : Option Metadata) (span : Option Keys) (name : String)
  | custom (meta : Option Metadata) (span : Option Keys) (msg : String)
  | never (meta : Option Metadata) (span : Option Keys)
  | unknownProperty (meta : Option Metadata) (span : Option Keys)

/-- Whether an error is the `Never` kind (the `if let ErrorValue::Never`
test of `validate_value`). -/
def VError.isNeverErr : VError → Bool
  | .never _ _ => true
  | _ => false

/-- Error aggregates are lists in discovery order (`Errors<S>` is a
vector; combination is concatenation). -/
abbrev Errors := List VError

/-! ## External regex engine model -/

/-- Model of the external `regex` crate: whether a pattern compiles
(`Regex::new` succeeds) and whether a compiled pattern matches a string
(`Regex::is_match`).  Theorems involving patterns are quantified over
the engine. -/
structure RegexEngine where
  compiles : String → Bool
  isMatch : String → String → Bool

/-- Boolean prefix test on character lists (the pattern is the first
argument). -/
def chPrefix : List Char → List Char → Bool
  | [], _ => true
  | _ :: _, [] => false
  | a :: as, b :: bs => a == b && chPrefix as bs

/-- Boolean substring test on character lists (the pattern is the first
argument). -/
def chInfix (pat : List Char) : List Char → Bool
  | [] => pat.isEmpty
  | l@(_ :: rest) => chPrefix pat l || chInfix pat rest

/-- `str::starts_with`, over character lists so that it evaluates. -/
def strStartsWith (s p : String) : Bool := chPrefix p.toList s.toList

/-- A concrete engine for executable witnesses: every pattern compiles
except those starting with the character `(`, and matching is substring
containment. -/
def simpleRegex : RegexEngine where
  compiles := fun p => !(strStartsWith p "(")
  isMatch := fun p s => chInfix p.toList s.toList

/-! ## Structural hash of values (external `DefaultHasher` model) -/

/-- One level of the modelled structural hash. -/
def hashStep (h : Value → Nat) : Value → Nat
  | .bool b => if b then 3 else 5
  | .int n => 7 + 2 * n.natAbs + (if n < 0 then 1 else 0)
  | .str s => s.toList.foldl (fun a c => a * 131 + c.toNat) 11
  | .null => 13
  | .seq xs => (xs.map h).foldl (fun a b => a * 31 + b) 17
  | .map es => (es.map (fun e => (e.1.toList.foldl (fun a c => a * 131 + c.toNat) 7) + h e.2)).foldl (fun a b => a * 31 + b) 19

/-- Modelled external `DefaultHasher`: fuel-indexed structural hash,
stable for values whose depth is below the fuel. -/
def hashLevel : Nat → Value → Nat
  | 0, _ => 0
  | fuel + 1, v => hashStep (hashLevel fuel) v

/-! ## Reference-path parsing (`schema.rs` `local_definition`) -/

/-- `str::trim_start_matches`: repeatedly strip a leading occurrence of
the pattern (fuelled by the string length, which bounds the number of
strips). -/
def trimStartAux : Nat → String → String → String
  | 0, s, _ => s
  | n + 1, s, p =>
    if p.length ≠ 0 && strStartsWith s p then trimStartAux n (s.drop p.length) p else s

/-- `local_definition` (`schema.rs` lines 1017-1023): a reference is
local iff it starts with `#/definitions/`; the local name is the path
with that prefix trimmed from the start. -/
def localDefinition (path : String) : Option String :=
  if strStartsWith path "#/definitions/" then
    some (trimStartAux path.length path "#/definitions/")
  else
    none

/-! ## Validator cursor (`SchemaValidator` state, `schema.rs` lines 69-113) -/

/-- Per-recursion-level validator state.  The definitions table is
passed separately (it is a borrow in the source). -/
structure Cursor where
  schema : Schema
  taggedAllow : Bool
  parentSpan : Option Keys
  span : Option Keys
  combinedSpan : Option Keys
  arrItemCount : Nat
  arrHashes : List (Nat × Option Keys)
  arrContains : Option Schema
  objRequired : List String
  objPropCount : Nat
  objLastKey : Option String
  objLastKeySpan : Option Keys

/-- `SchemaValidator::new`. -/
def Cursor.new (schema : Schema) : Cursor where
  schema := schema
  taggedAllow := false
  parentSpan := none
  span := none
  combinedSpan := none
  arrItemCount := 0
  arrHashes := []
  arrContains := none
  objRequired := []
  objPropCount := 0
  objLastKey := none
  objLastKeySpan := none

/-- `combine_spans`: the combined span is the parent span, extended by
the cursor span when the latter is present. -/
def combineSpans (p s : Option Keys) : Option Keys :=
  match s with
  | some _ => optCombine p s
  | none => p

/-- `SchemaValidator::combine_spans` applied to a cursor. -/
def Cursor.recombine (c : Cursor) : Cursor :=
  { c with combinedSpan := combineSpans c.parentSpan c.span }

/-- `SchemaValidator::with_spans`. -/
def Cursor.withSpans (c : Cursor) (p s : Option Keys) : Cursor :=
  Cursor.recombine { c with parentSpan := p, span := s }

/-- `SchemaValidator::with_parent_span`. -/
def Cursor.withParentSpan (c : Cursor) (p : Option Keys) : Cursor :=
  Cursor.recombine { c with parentSpan := p }

/-- `Validator::with_span` (identical bodies for the sequence and map
sub-validators): a present span replaces the cursor span; an absent span
resets both the parent and the cursor span. -/
def Cursor.withSpan (c : Cursor) (s : Option Keys) : Cursor :=
  match s with
  | some sp => Cursor.recombine { c with span := some sp }
  | none => Cursor.recombine { c with parentSpan := none, span := none }

/-! ## Leaf checks

The macros module defining `not_bool_schema!`, `check_type!`,
`check_enum!`, `check_number!` and `check_string!` is not among the
provided sources (only `schema.rs` invokes the macros); the five
definitions below are modelled from the spec. -/

/-- Modelled from the spec: the missing `check_type!` macro.  Type
mismatch is checked first for every kind against the node's declared
instance types (single or alternative set, absent means unconstrained);
on mismatch one `InvalidType` error carrying the declared set, the node
metadata and the combined span. -/
def checkType (meta : Option Metadata) (span : Option Keys)
    (declared : Option (SingleOrVec InstanceType)) (t : InstanceType) : Errors :=
  match declared with
  | none => []
  | some s => if typeListed s t then [] else [.invalidType meta span s]

mutual

/-- Structural equality of values (the literal comparison performed by
the missing `check_enum!` macro). -/
def valueEq : Value → Value → Bool
  | .bool a, .bool b => a == b
  | .int a, .int b => a == b
  | .str a, .str b => a == b
  | .null, .null => true
  | .seq a, .seq b => valueListEq a b
  | .map a, .map b => valueEntriesEq a b
  | _, _ => false

/-- Pointwise `valueEq` on lists. -/
def valueListEq : List Value → List Value → Bool
  | [], [] => true
  | a :: as, b :: bs => valueEq a b && valueListEq as bs
  | _, _ => false

/-- Pointwise `valueEq` on map entries (keys compared as strings). -/
def valueEntriesEq : List (String × Value) → List (String × Value) → Bool
  | [], [] => true
  | (k, a) :: as, (l, b) :: bs => k == l && valueEq a b && valueEntriesEq as bs
  | _, _ => false

end

/-- Modelled from the spec: the missing `check_enum!` macro.
Enumeration membership (if declared) checked against the literal value;
on failure one `InvalidEnumValue` error carrying the allowed list. -/
def checkEnum (meta : Option Metadata) (span : Option Keys)
    (declared : Option (List Value)) (v : Value) : Errors :=
  match declared with
  | none => []
  | some l => if l.any (valueEq v) then [] else [.invalidEnumValue meta span l]

/-- Modelled from the spec: the missing `check_number!` macro.
Multiple-of (non-zero remainder), minimum/maximum with
inclusive/exclusive variants; independent sub-checks accumulate. -/
def checkNumber (meta : Option Metadata) (span : Option Keys)
    (declared : Option NumberValidation) (n : Int) : Errors :=
  match declared with
  | none => []
  | some num =>
    (match num.multipleOf with
     | some m => if n % m ≠ 0 then [.notMultipleOf meta span m] else []
     | none => []) ++
    (match num.minimum with
     | some m => if n < m then [.lessThanExpected meta span m false] else []
     | none => []) ++
    (match num.exclusiveMinimum with
     | some m => if n ≤ m then [.lessThanExpected meta span m true] else []
     | none => []) ++
    (match num.maximum with
     | some m => if m < n then [.moreThanExpected meta span m false] else []
     | none => []) ++
    (match num.exclusiveMaximum with
     | some m => if m ≤ n then [.moreThanExpected meta span m true] else []
     | none => [])

/-- Modelled from the spec: the missing `check_string!` macro.  Pattern
(a malformed pattern yields `InvalidPattern` instead of a match
failure), maximum/minimum length; independent sub-checks accumulate. -/
def checkString (re : RegexEngine) (meta : Option Metadata) (span : Option Keys)
    (declared : Option StringValidation) (s : String) : Errors :=
  match declared with
  | none => []
  | some sv =>
    (match sv.pattern with
     | some p =>
       if re.compiles p then
         if re.isMatch p s then [] else [.noPatternMatch meta span p]
       else [.invalidPattern meta span p]
     | none => []) ++
    (match sv.maxLength with
     | some m => if m < s.length then [.tooLong meta span m] else []
     | none => []) ++
    (match sv.minLength with
     | some m => if s.length < m then [.tooShort meta span m] else []
     | none => [])

/-- Modelled from the spec: the error produced by the missing
`not_bool_schema!` macro when the schema is the always-reject boolean
leaf `false` — one `NotAllowed` error at the cursor's combined span.
The macro's three-way case split (accept on `true`, reject on `false`,
continue with the object) is inlined at each call site below, mirroring
macro expansion. -/
def notAllowedErr (span : Option Keys) : Errors := [.notAllowed none span]

/-! ## Validator protocol methods of the schema engine (`schema.rs`)

Functions that recurse into sub-schemas are parameterised by the
previous fuel level of the engine, of type `ViFn`: the embedded
`SchemaValidator::validate_inner` taking the schema, the parent span,
the cursor span, the value's own span and the value. -/

/-- The type of one engine level: schema, parent span, cursor span,
value span, value. -/
abbrev ViFn := Schema → Option Keys → Option Keys → Option Keys → Value → Option Errors

/-- `Validator::validate_bool/..._i64/..._str/..._none` and friends: the
primitive judgments, each a sequence of early-returning leaf checks on
the cursor's combined span (`schema.rs` lines 390-579).  Sequences and
maps never reach this function (the adapter dispatches them to
`validate_seq`/`validate_map`). -/
def validatePrim (re : RegexEngine) (c : Cursor) : Value → Errors
  | .bool b =>
    match c.schema with
    | .bool true => []
    | .bool false => notAllowedErr c.combinedSpan
    | .obj so =>
      let t := checkType so.metadata c.combinedSpan so.instanceType .boolean
      if !t.isEmpty then t
      else checkEnum so.metadata c.combinedSpan so.enumValues (.bool b)
  | .int n =>
    match c.schema with
    | .bool true => []
    | .bool false => notAllowedErr c.combinedSpan
    | .obj so =>
      let t := checkType so.metadata c.combinedSpan so.instanceType .integer
      if !t.isEmpty then t
      else
        let e := checkEnum so.metadata c.combinedSpan so.enumValues (.int n)
        if !e.isEmpty then e
        else checkNumber so.metadata c.combinedSpan so.number n
  | .str s =>
    match c.schema with
    | .bool true => []
    | .bool false => notAllowedErr c.combinedSpan
    | .obj so =>
      let t := checkType so.metadata c.combinedSpan so.instanceType .string
      if !t.isEmpty then t
      else
        let e := checkEnum so.metadata c.combinedSpan so.enumValues (.str s)
        if !e.isEmpty then e
        else checkString re so.metadata c.combinedSpan so.stringVal s
  | .null =>
    match c.schema with
    | .bool true => []
    | .bool false => notAllowedErr c.combinedSpan
    | .obj so => checkType so.metadata c.combinedSpan so.instanceType .null
  | .seq _ => []
  | .map _ => []

/-- `Validator::validate_seq` (`schema.rs` lines 581-598): boolean-leaf
gate, array type check, `contains` obligation installed, then the parent
span becomes the combined span for the elements. -/
def validateSeqStart (c : Cursor) : Except Errors Cursor :=
  match c.schema with
  | .bool true => .ok c
  | .bool false => .error (notAllowedErr c.combinedSpan)
  | .obj so =>
    let t := checkType so.metadata c.combinedSpan so.instanceType .array
    if !t.isEmpty then .error t
    else
      let c1 :=
        match so.array with
        | some arr =>
          (match arr.contains with
           | some cs => { c with arrContains := some cs }
           | none => c)
        | none => c
      .ok { c1 with parentSpan := c1.combinedSpan }

/-- `Validator::validate_map` (`schema.rs` lines 600-612): boolean-leaf
gate, object type check, the required-property set is loaded, then the
parent span becomes the combined span for the entries. -/
def validateMapStart (c : Cursor) : Except Errors Cursor :=
  match c.schema with
  | .bool true => .ok c
  | .bool false => .error (notAllowedErr c.combinedSpan)
  | .obj so =>
    let t := checkType so.metadata c.combinedSpan so.instanceType .object
    if !t.isEmpty then .error t
    else
      let c1 :=
        match so.object with
        | some obj => { c with objRequired := obj.required }
        | none => c
      .ok { c1 with parentSpan := c1.combinedSpan }

/-- The pattern-property scan of `validate_tag` (`schema.rs` lines
634-650): each pattern is compiled (a malformed pattern aborts with
`InvalidPattern` at the tag's span) and the first matching pattern's
schema is selected. -/
def tagPatterns (re : RegexEngine) (meta : Option Metadata) (tagSpan : Option Keys) :
    List (String × Schema) → String → Except Errors (Option Schema)
  | [], _ => .ok none
  | (pk, ps) :: rest, key =>
    if re.compiles pk then
      if re.isMatch pk key then .ok (some ps)
      else tagPatterns re meta tagSpan rest key
    else .error [.invalidPattern meta tagSpan pk]

/-- `Validator::validate_tag` (`schema.rs` lines 614-660): the tag's
string form is looked up among named properties, then pattern
properties in declaration order, then `additionalProperties`; on a hit
the cursor continues with the resolved schema, on no hit the cursor
enters accept-everything mode. -/
def validateTag (re : RegexEngine) (c : Cursor) (tag : String) (tagSpan : Option Keys) :
    Except Errors Cursor :=
  match c.schema with
  | .bool true => .ok c
  | .bool false => .error (notAllowedErr c.combinedSpan)
  | .obj so =>
    let t := checkType so.metadata c.combinedSpan so.instanceType .object
    if !t.isEmpty then .error t
    else
      let tagSpanC := combinedSpan c.parentSpan tagSpan
      match so.object with
      | none => .ok { c with taggedAllow := true }
      | some obj =>
        match lookupStr obj.properties tag with
        | some ps => .ok { c with schema := ps }
        | none =>
          match tagPatterns re so.metadata tagSpanC obj.patternProperties tag with
          | .error es => .error es
          | .ok (some ps) => .ok { c with schema := ps }
          | .ok none =>
            match obj.additionalProperties with
            | some aps => .ok { c with schema := aps }
            | none => .ok { c with taggedAllow := true }

/-- `ValidateMap::validate_key` (`schema.rs` lines 834-852): accepted in
accept-everything mode, otherwise the non-string key is rejected as
`KeyNotString` at the key's own span. -/
def validateKey (c : Cursor) (keySpan : Option Keys) : Except Errors Unit :=
  if c.taggedAllow then .ok ()
  else .error [.keyNotString (schemaMeta c.schema) keySpan]

/-- `ValidateMap::validate_string_key` (`schema.rs` lines 854-886): the
property count grows, the key leaves the remaining-required set and is
remembered for the following value, and a `propertyNames` sub-schema (if
any) validates the key, aborting the map on failure. -/
def validateStringKey (vi : ViFn) (c : Cursor) (k : String) (keySpan : Option Keys) :
    Option (Except Errors Cursor) :=
  if c.taggedAllow then some (.ok c)
  else
    let c1 := { c with objPropCount := c.objPropCount + 1 }
    match c1.schema with
    | .bool true => some (.ok c1)
    | .bool false => some (.error (notAllowedErr c1.combinedSpan))
    | .obj so =>
      let keySpanC := combinedSpan c1.parentSpan keySpan
      let c2 := { c1 with objRequired := c1.objRequired.filter (fun r => !(r == k)),
                          objLastKey := some k, objLastKeySpan := keySpan }
      match so.object with
      | none => some (.ok c2)
      | some obj =>
        match obj.propertyNames with
        | none => some (.ok c2)
        | some ns =>
          match vi ns c2.parentSpan keySpanC keySpan (.str k) with
          | none => none
          | some [] => some (.ok c2)
          | some (e :: rest) => some (.error (e :: rest))

/-- The pattern-property scan of `validate_value` (`schema.rs` lines
914-939): result `some none` means no pattern matched (fall through to
`additionalProperties`), `some (some es)` means the entry was decided
with errors `es` (a malformed pattern decides with `InvalidPattern` at
the value's span), `none` means the embedding ran out of fuel. -/
def patternsValue (re : RegexEngine) (vi : ViFn) (meta : Option Metadata) :
    List (String × Schema) → String → Option Keys → Option Keys → Value → Option (Option Errors)
  | [], _, _, _, _ => some none
  | (pk, ps) :: rest, key, pspan, vspan, v =>
    if re.compiles pk then
      if re.isMatch pk key then
        match vi ps pspan none vspan v with
        | none => none
        | some es => some (some es)
      else patternsValue re vi meta rest key pspan vspan v
    else some (some [.invalidPattern meta vspan pk])

/-- `ValidateMap::validate_value` (`schema.rs` lines 888-960): the
remembered key selects an exact-name property schema, else the first
matching pattern property, else `additionalProperties` (where a leading
`Never` error is reported as `UnknownProperty` at the remembered key
span), else no constraint. -/
def validateValueEntry (re : RegexEngine) (vi : ViFn) (c : Cursor) (v : Value)
    (vspan : Option Keys) : Option (Cursor × Errors) :=
  if c.taggedAllow then some (c, [])
  else
    match c.schema with
    | .bool true => some (c, [])
    | .bool false => some (c, notAllowedErr c.combinedSpan)
    | .obj so =>
      match c.objLastKey with
      | none => some (c, [])
      | some key =>
        let c1 := { c with objLastKey := none }
        match so.object with
        | none => some (c1, [])
        | some obj =>
          match lookupStr obj.properties key with
          | some ps => (vi ps c1.parentSpan none vspan v).map (fun es => (c1, es))
          | none =>
            match patternsValue re vi so.metadata obj.patternProperties key c1.parentSpan vspan v with
            | none => none
            | some (some es) => some (c1, es)
            | some none =>
              match obj.additionalProperties with
              | none => some (c1, [])
              | some aps =>
                match vi aps c1.parentSpan none vspan v with
                | none => none
                | some [] => some (c1, [])
                | some (e :: rest) =>
                  if e.isNeverErr then
                    some ({ c1 with objLastKeySpan := none },
                      [.unknownProperty so.metadata c1.objLastKeySpan])
                  else some (c1, e :: rest)

/-- `HashMap::insert` on the uniqueness table: returns the previous
value stored under the hash, and the table now mapping the hash to the
new span. -/
def assocInsert : List (Nat × Option Keys) → Nat → Option Keys →
    Option (Option Keys) × List (Nat × Option Keys)
  | [], h, sp => (none, [(h, sp)])
  | (k, w) :: rest, h, sp =>
    if k == h then (some w, (k, sp) :: rest)
    else
      let r := assocInsert rest h sp
      (r.1, (k, w) :: r.2)

/-- `ValidateSeq::validate_element` (`schema.rs` lines 681-763): item
count grows, the `contains` obligation is advanced, the element is
validated against the applicable item schema, and under `uniqueItems`
the element's hash is inserted into the uniqueness table, reporting
`NotUnique` with the previously stored span on collision. -/
def validateElement (vi : ViFn) (hashF : Value → Nat) (c : Cursor) (x : Value)
    (xspan : Option Keys) : Option (Cursor × Errors) :=
  if c.taggedAllow then some (c, [])
  else
    let c1 := { c with arrItemCount := c.arrItemCount + 1 }
    match c1.schema with
    | .bool true => some (c1, [])
    | .bool false => some (c1, notAllowedErr c1.combinedSpan)
    | .obj so =>
      let valueSpan := combinedSpan c1.parentSpan xspan
      match so.array with
      | none => some (c1, [])
      | some arr =>
        let containsStep : Option Cursor :=
          match c1.arrContains with
          | some cs =>
            match vi cs c1.parentSpan none xspan x with
            | none => none
            | some [] => some { c1 with arrContains := none }
            | some (_ :: _) => some c1
          | none => some c1
        match containsStep with
        | none => none
        | some c2 =>
          let itemErrs : Option Errors :=
            match arr.items with
            | none => some []
            | some (.single ss) => vi ss c2.parentSpan none xspan x
            | some (.vec schemas) =>
              match schemas.get? (c2.arrItemCount - 1) with
              | some s => vi s c2.parentSpan none xspan x
              | none =>
                match arr.additionalItems with
                | some s => vi s c2.parentSpan none xspan x
                | none => some []
          match itemErrs with
          | none => none
          | some es =>
            if arr.uniqueItems == some true then
              let h := hashF x
              let r := assocInsert c2.arrHashes h valueSpan
              let c3 := { c2 with arrHashes := r.2 }
              match r.1 with
              | some w => some (c3, es ++ [.notUnique so.metadata valueSpan w valueSpan])
              | none => some (c3, es)
            else some (c2, es)

/-- `ValidateSeq::end` (`schema.rs` lines 765-813): an unmet `contains`
obligation and the `minItems`/`maxItems` bounds are reported against the
final item count. -/
def seqEnd (c : Cursor) : Errors :=
  if c.taggedAllow then []
  else
    match c.schema with
    | .bool true => []
    | .bool false => notAllowedErr c.combinedSpan
    | .obj so =>
      (match c.arrContains with
       | some cs => [.mustContain so.metadata c.combinedSpan (schemaMeta cs)]
       | none => []) ++
      (match so.array with
       | none => []
       | some arr =>
         (match arr.minItems with
          | some m => if c.arrItemCount < m then [.notEnoughItems so.metadata c.combinedSpan m] else []
          | none => []) ++
         (match arr.maxItems with
          | some m => if m < c.arrItemCount then [.tooManyItems so.metadata c.combinedSpan m] else []
          | none => []))

/-- `ValidateMap::end` (`schema.rs` lines 962-1005): the
`maxProperties`/`minProperties` bounds are reported against the final
property count, then every name still in the remaining-required set
yields one `RequiredProperty` error. -/
def mapEnd (c : Cursor) : Errors :=
  if c.taggedAllow then []
  else
    match c.schema with
    | .bool true => []
    | .bool false => notAllowedErr c.combinedSpan
    | .obj so =>
      (match so.object with
       | none => []
       | some obj =>
         (match obj.maxProperties with
          | some m => if m < c.objPropCount then [.tooManyProperties so.metadata c.combinedSpan m] else []
          | none => []) ++
         (match obj.minProperties with
          | some m => if c.objPropCount < m then [.notEnoughProperties so.metadata c.combinedSpan m] else []
          | none => [])) ++
      c.objRequired.map (fun p => .requiredProperty so.metadata c.combinedSpan p)

/-! ## The serde traversal driver (`serde.rs`, specialised to `KeySpans`)

A `Spanned` value walks itself through the validator: sequence elements
are announced with their zero-based index as a one-segment span, map
entries with their key; closing a collection resets the span hierarchy
(`KeySpans::seq_end`/`map_end` return `Add(None)`), and a failing map
key aborts the remaining entries together with the map's `end` call.
`seqElems`/`mapEntries` return the final cursor and the accumulated
errors; the `Bool` of `mapEntries` records an abort. -/

/-- The element loop of `SerializeSeq` for `SpannedInner`. -/
def seqElems (vi : ViFn) (hashF : Value → Nat) (c : Cursor) :
    List Value → Nat → Option (Cursor × Errors)
  | [], _ => some (c, [])
  | x :: rest, idx =>
    match validateElement vi hashF c x (some [toString idx]) with
    | none => none
    | some (c1, es) =>
      match seqElems vi hashF c1 rest (idx + 1) with
      | none => none
      | some (c2, es2) => some (c2, es ++ es2)

/-- The entry loop of `SerializeMap` for `SpannedInner`: each key is
announced with `with_span`, judged by `validate_string_key` (or
`validate_key` when the cursor does not require string keys), then the
value is judged by `validate_value`; a key failure aborts. -/
def mapEntries (re : RegexEngine) (vi : ViFn) (c : Cursor) :
    List (String × Value) → Option (Cursor × Errors × Bool)
  | [] => some (c, [], false)
  | (k, v) :: rest =>
    let c1 := c.withSpan (some [k])
    if c1.taggedAllow then
      match validateKey c1 (some [k]) with
      | .error es => some (c1, es, true)
      | .ok _ =>
        match validateValueEntry re vi c1 v (some [k]) with
        | none => none
        | some (c2, es2) =>
          match mapEntries re vi c2 rest with
          | none => none
          | some (c3, es3, ab) => some (c3, es2 ++ es3, ab)
    else
      match validateStringKey vi c1 k (some [k]) with
      | none => none
      | some (.error es) => some (c1, es, true)
      | some (.ok c2) =>
        match validateValueEntry re vi c2 v (some [k]) with
        | none => none
        | some (c3, es2) =>
          match mapEntries re vi c3 rest with
          | none => none
          | some (c4, es3, ab) => some (c4, es2 ++ es3, ab)

/-- One `Spanned::validate` traversal: the value describes itself to the
cursor (`value.validate(validator)` in `validate_inner` step 3), with
the value's own span as the adapter's starting span. -/
def driveValue (re : RegexEngine) (vi : ViFn) (hashF : Value → Nat) (c0 : Cursor)
    (selfSpan : Option Keys) : Value → Option Errors
  | .bool b => some (validatePrim re (c0.withSpan selfSpan) (.bool b))
  | .int n => some (validatePrim re (c0.withSpan selfSpan) (.int n))
  | .str s => some (validatePrim re (c0.withSpan selfSpan) (.str s))
  | .null => some (validatePrim re (c0.withSpan selfSpan) .null)
  | .seq xs =>
    let c := c0.withSpan selfSpan
    match validateSeqStart c with
    | .error es => some es
    | .ok c1 =>
      match seqElems vi hashF c1 xs 0 with
      | none => none
      | some (c2, errs) => some (errs ++ seqEnd (c2.withSpan none))
  | .map es =>
    let c := c0.withSpan selfSpan
    match validateMapStart c with
    | .error e => some e
    | .ok c1 =>
      match mapEntries re vi c1 es with
      | none => none
      | some (c2, errs, aborted) =>
        if aborted then some errs
        else some (errs ++ mapEnd (c2.withSpan none))

/-! ## Subschema combinators (`validate_subschemas`, `schema.rs` lines 179-343) -/

/-- The `allOf` loop: every sub-schema validates, all errors
concatenate. -/
def allOfRun (g : Schema → Option Errors) : List Schema → Option Errors
  | [] => some []
  | s :: rest =>
    match g s with
    | none => none
    | some es => (allOfRun g rest).map (fun es2 => es ++ es2)

/-- The shared `anyOf`/`oneOf` branch loop: for every sub-schema either
its metadata joins the `validated` list (success) or its error set joins
the nested error list, in declaration order. -/
def branchRun (g : Schema → Option Errors) :
    List Schema → Option (List (Option Metadata) × List Errors)
  | [] => some ([], [])
  | s :: rest =>
    match g s with
    | none => none
    | some r =>
      match branchRun g rest with
      | none => none
      | some (va, ie) =>
        if r.isEmpty then some (schemaMeta s :: va, ie) else some (va, r :: ie)

/-- The `if`/`then`/`else` step: it runs only when both an `if` and a
`then` sub-schema are present; on `if` success the `then` errors are the
result, on `if` failure the `else` errors (if an `else` is present) are
the result. -/
def iteRun (g : Schema → Option Errors) (sub : Subschemas) : Option Errors :=
  match sub.ifSchema, sub.thenSchema with
  | some i, some t =>
    (match g i with
     | none => none
     | some [] => g t
     | some (_ :: _) =>
       match sub.elseSchema with
       | some e => g e
       | none => some [])
  | _, _ => some []

/-- The `not` step: success of the negated sub-schema yields one
`ValidNot` error carrying its provenance. -/
def notRun (g : Schema → Option Errors) (meta : Option Metadata) (vspan : Option Keys) :
    Option Schema → Option Errors
  | none => some []
  | some n =>
    match g n with
    | none => none
    | some [] => some [.validNot meta vspan (schemaMeta n)]
    | some (_ :: _) => some []

/-- `validate_subschemas`: evaluates `allOf`, `anyOf`, `oneOf`,
`if`/`then`/`else` and `not` in this order, accumulating errors.  Zero
`anyOf`/`oneOf` matches yield one `NoneValid` (with the `exclusive` flag
for `oneOf`) carrying the per-branch error sets; more than one `oneOf`
match yields one `MoreThanOneValid` naming the matched branches'
provenance. -/
def validateSubschemasStep (vi : ViFn) (so : SchemaObject)
    (pspan cspan vspan : Option Keys) (v : Value) : Option Errors :=
  match so.subschemas with
  | none => some []
  | some sub =>
    let g := fun sch => vi sch pspan cspan vspan v
    do
      let e1 ← match sub.allOf with
        | none => pure []
        | some l => allOfRun g l
      let e2 ← match sub.anyOf with
        | none => pure []
        | some l =>
          (branchRun g l).map (fun p =>
            if p.1.isEmpty then [.noneValid so.metadata vspan false (l.map schemaMeta) p.2]
            else [])
      let e3 ← match sub.oneOf with
        | none => pure []
        | some l =>
          (branchRun g l).map (fun p =>
            if p.1.isEmpty then [.noneValid so.metadata vspan true (l.map schemaMeta) p.2]
            else if 1 < p.1.length then
              [.moreThanOneValid so.metadata vspan (l.map schemaMeta) p.1]
            else [])
      let e4 ← iteRun g sub
      let e5 ← notRun g so.metadata vspan sub.notSchema
      pure (e1 ++ e2 ++ e3 ++ e4 ++ e5)

/-! ## The engine level (`validate_inner`, `schema.rs` lines 115-177) -/

/-- One level of `SchemaValidator::validate_inner`, parameterised by the
previous level `vi`: boolean-leaf gate, reference resolution (a local
reference recurses into its target with the parent span unchanged and
the cursor span replaced by the value's span; an unresolved local name
is a terminal `MissingDefinition`, a non-local reference a terminal
`ExternalReference`, both at the value span), then the combinators, then
— only when an instance type is declared — the leaf traversal of the
value. -/
def validateInnerStep (re : RegexEngine) (vi : ViFn) (hashF : Value → Nat) (defs : Defs)
    (schema : Schema) (pspan cspan vspan : Option Keys) (v : Value) : Option Errors :=
  let combined := combineSpans pspan cspan
  match schema with
  | .bool true => some []
  | .bool false => some (notAllowedErr combined)
  | .obj so =>
    let valueSpan := optCombine combined vspan
    match so.reference with
    | some r =>
      match localDefinition r with
      | some name =>
        match lookupStr defs name with
        | some target => vi target pspan vspan vspan v
        | none => some [.missingDefinition so.metadata valueSpan name]
      | none => some [.externalReference so.metadata valueSpan r]
    | none =>
      match validateSubschemasStep vi so pspan cspan vspan v with
      | none => none
      | some errs1 =>
        match so.instanceType with
        | none => some errs1
        | some _ =>
          let c := (Cursor.new (.obj so)).withSpans pspan vspan
          match driveValue re vi hashF c vspan v with
          | none => none
          | some errs2 => some (errs1 ++ errs2)

/-- The fuelled engine: level `fuel + 1` is one `validate_inner` step
whose recursive calls run at level `fuel`; level `0` is out of fuel
(`none`).  The source has no recursion guard, so `none` corresponds to a
run whose recursion depth exceeds the fuel. -/
def validateLevel (re : RegexEngine) (defs : Defs) :
    Nat → Schema → Option Keys → Option Keys → Option Keys → Value → Option Errors
  | 0, _, _, _, _, _ => none
  | fuel + 1, schema, p, s, vs, v =>
    validateInnerStep re
      (fun sch p2 s2 vs2 v2 => validateLevel re defs fuel sch p2 s2 vs2 v2)
      (hashLevel fuel) defs schema p s vs v

/-- `Verifier::verify_value_with_span` for `RootSchema` (`schema.rs`
lines 18-34): a fresh cursor on the root schema object with the given
parent span; a `Spanned::new` value starts with no span of its own. -/
def verifyValueLevel (re : RegexEngine) (fuel : Nat) (root : RootSchema)
    (span : Option Keys) (v : Value) : Option Errors :=
  validateLevel re root.definitions fuel (.obj root.schema) span none none v

/-! ## Self-check pass (`impls/schemars/verify.rs`)

The pass recurses structurally over the schema tree (references are
checked for existence but not followed), so it is embedded without
fuel.  Location is tracked with schema-document path segments. -/

/-- The `patternProperties` key compilation loop (`verify.rs` lines
125-136): each non-compiling key yields `InvalidPattern` at
`span + "patternProperties" + key`. -/
def patternKeyErrs (re : RegexEngine) : List (String × Schema) → Keys → Errors
  | [], _ => []
  | (k, _) :: rest, span =>
    (if re.compiles k then []
     else [.invalidPattern none (some (span ++ ["patternProperties", k])) k]) ++
    patternKeyErrs re rest span

/-- The `string.pattern` compilation check (`verify.rs` lines 151-164). -/
def stringPatternErrs (re : RegexEngine) (strv : Option StringValidation) (span : Keys) : Errors :=
  match strv with
  | none => []
  | some sv =>
    match sv.pattern with
    | none => []
    | some p =>
      if re.compiles p then [] else [.invalidPattern none (some (span ++ ["pattern"])) p]

mutual

/-- `verify_schema` (`verify.rs` lines 33-42). -/
def verifySchema (re : RegexEngine) (defs : Defs) : Schema → Keys → Errors
  | .bool _, _ => []
  | .obj o, span => verifySchemaObject re defs o span

/-- `verify_schema_object` (`verify.rs` lines 44-171): a reference is
checked against the definitions table first (failure is terminal for
this node), then the combinator lists (`allOf`, `oneOf`, `anyOf`, `not`,
`if`, `then`, `else` in source order), the object group (pattern keys,
properties, `additionalProperties`) and the string pattern accumulate
errors. -/
def verifySchemaObject (re : RegexEngine) (defs : Defs) : SchemaObject → Keys → Errors
  | ⟨_, _, _, _, strv, _, objv, subs, ref⟩, span =>
    let rest := verifySubsPart re defs subs span ++ verifyObjPart re defs objv span ++
      stringPatternErrs re strv span
    match ref with
    | some r =>
      match localDefinition r with
      | some name =>
        if (lookupStr defs name).isNone then [.missingDefinition none (some span) name]
        else rest
      | none => [.externalReference none (some span) r]
    | none => rest

/-- The combinator checks of the pass (`verify.rs` lines 74-122):
`allOf`, `oneOf`, `anyOf`, `not`, `if`, `then`, `else`, in source
order. -/
def verifySubsPart (re : RegexEngine) (defs : Defs) : Option Subschemas → Keys → Errors
  | none, _ => []
  | some ⟨allOf, anyOf, oneOf, notS, ifS, thenS, elseS⟩, span =>
    verifyOptList re defs allOf span "allOf" ++
    verifyOptList re defs oneOf span "oneOf" ++
    verifyOptList re defs anyOf span "anyOf" ++
    verifyOpt re defs notS (span ++ ["not"]) ++
    verifyOpt re defs ifS (span ++ ["if"]) ++
    verifyOpt re defs thenS (span ++ ["then"]) ++
    verifyOpt re defs elseS (span ++ ["else"])

/-- The object-group checks of the pass (`verify.rs` lines 124-149):
pattern-property keys, properties, `additionalProperties`. -/
def verifyObjPart (re : RegexEngine) (defs : Defs) : Option ObjectValidation → Keys → Errors
  | none, _ => []
  | some ⟨_, _, _, props, patProps, addProps, _⟩, span =>
    patternKeyErrs re patProps span ++
    verifyProps re defs props span ++
    verifyOpt re defs addProps (span ++ ["additionalProperties"])

/-- An optional sub-schema position of the pass (the repeated
`if let Some(s) = ... { verify_schema(s, ...) }` shape). -/
def verifyOpt (re : RegexEngine) (defs : Defs) : Option Schema → Keys → Errors
  | none, _ => []
  | some s, span => verifySchema re defs s span

/-- An optional combinator list of the pass, each element under
`span + label + index`. -/
def verifyOptList (re : RegexEngine) (defs : Defs) :
    Option (List Schema) → Keys → String → Errors
  | none, _, _ => []
  | some l, span, label => verifySchemaList re defs l span label 0

/-- The indexed combinator-list loop of the pass. -/
def verifySchemaList (re : RegexEngine) (defs : Defs) :
    List Schema → Keys → String → Nat → Errors
  | [], _, _, _ => []
  | s :: rest, span, label, i =>
    verifySchema re defs s (span ++ [label, toString i]) ++
    verifySchemaList re defs rest span label (i + 1)

/-- The `properties` loop of the pass, each schema under
`span + "properties" + name`. -/
def verifyProps (re : RegexEngine) (defs : Defs) :
    List (String × Schema) → Keys → Errors
  | [], _ => []
  | (k, s) :: rest, span =>
    verifySchema re defs s (span ++ ["properties", k]) ++ verifyProps re defs rest span

end

/-- The definitions-table loop of `Verify for RootSchema` (`verify.rs`
lines 15-19): every definition is verified under
`"definitions" + name`. -/
def verifyDefinitions (re : RegexEngine) (defs : Defs) : Defs → Errors
  | [] => []
  | (k, s) :: rest =>
    verifySchema re defs s ["definitions", k] ++ verifyDefinitions re defs rest

/-- `Verify::verify` for `RootSchema` (`verify.rs` lines 9-31):
definitions first, then the root schema object at the empty span;
success is the empty error list. -/
def verifyRoot (re : RegexEngine) (root : RootSchema) : Errors :=
  verifyDefinitions re root.definitions root.definitions ++
  verifySchemaObject re root.definitions root.schema []

/-! ## The no-reference/no-pattern predicate (for the self-check claim)

A schema "contains no references and no regex-bearing fields" when no
node anywhere in it carries a `reference`, a `string.pattern` or any
`patternProperties` key. -/

mutual

/-- No reference and no regex-bearing field anywhere in the schema. -/
def noRefPat : Schema → Bool
  | .bool _ => true
  | .obj o => noRefPatObj o

/-- `noRefPat` on an object node: no reference, no string pattern, no
pattern-property keys, and all sub-schema positions clean. -/
def noRefPatObj : SchemaObject → Bool
  | ⟨_, _, _, _, strv, arr, objv, subs, ref⟩ =>
    ref.isNone && noPatternStr strv && noRefPatArr arr &&
    noRefPatObjPart objv && noRefPatSubs subs

/-- No regex-bearing field in a string constraint group. -/
def noPatternStr : Option StringValidation → Bool
  | none => true
  | some sv => sv.pattern.isNone

/-- `noRefPat` on an optional array constraint group. -/
def noRefPatArr : Option ArrayValidation → Bool
  | none => true
  | some ⟨items, addIt, _, _, _, contains⟩ =>
    (match items with
     | none => true
     | some (.single s) => noRefPat s
     | some (.vec l) => noRefPatList l) &&
    noRefPatOpt addIt && noRefPatOpt contains

/-- `noRefPat` on an optional object constraint group: in particular,
no `patternProperties` keys at all. -/
def noRefPatObjPart : Option ObjectValidation → Bool
  | none => true
  | some ⟨_, _, _, props, patProps, addProps, propNames⟩ =>
    patProps.isEmpty && noRefPatProps props &&
    noRefPatOpt addProps && noRefPatOpt propNames

/-- `noRefPat` on an optional combinator group. -/
def noRefPatSubs : Option Subschemas → Bool
  | none => true
  | some ⟨allOf, anyOf, oneOf, notS, ifS, thenS, elseS⟩ =>
    noRefPatOptList allOf && noRefPatOptList anyOf && noRefPatOptList oneOf &&
    noRefPatOpt notS && noRefPatOpt ifS && noRefPatOpt thenS && noRefPatOpt elseS

/-- `noRefPat` on an optional sub-schema position. -/
def noRefPatOpt : Option Schema → Bool
  | none => true
  | some s => noRefPat s

/-- `noRefPat` on an optional sub-schema list. -/
def noRefPatOptList : Option (List Schema) → Bool
  | none => true
  | some l => noRefPatList l

/-- `noRefPat` on every element of a list. -/
def noRefPatList : List Schema → Bool
  | [] => true
  | s :: rest => noRefPat s && noRefPatList rest

/-- `noRefPat` on every schema of a property list. -/
def noRefPatProps : List (String × Schema) → Bool
  | [] => true
  | (_, s) :: rest => noRefPat s && noRefPatProps rest

end

/-- `noRefPat` on a whole document: the root object and every entry of
the definitions table. -/
def noRefPatRoot (root : RootSchema) : Bool :=
  noRefPatObj root.schema && noRefPatProps root.definitions

end VerifyLib
namespace VerifyLib

def emptySO : SchemaObject :=
  { metadata := none, instanceType := none, enumValues := none, number := none,
    stringVal := none, array := none, object := none, subschemas := none, reference := none }

def emptyArr : ArrayValidation :=
  { items := none, additionalItems := none, maxItems := none, minItems := none,
    uniqueItems := none, contains := none }

def emptyObjV : ObjectValidation :=
  { maxProperties := none, minProperties := none, required := [], properties := [],
    patternProperties := [], additionalProperties := none, propertyNames := none }

def emptySub : Subschemas :=
  { allOf := none, anyOf := none, oneOf := none, notSchema := none,
    ifSchema := none, thenSchema := none, elseSchema := none }

def intSchema : SchemaObject := { emptySO with instanceType := some (.single .integer) }

def uniqSchema : SchemaObject :=
  { emptySO with instanceType := some (.single .array),
                 array := some ({ emptyArr with uniqueItems := some true }) }

def reqSchema : SchemaObject :=
  { emptySO with instanceType := some (.single .object),
                 object := some ({ emptyObjV with required := ["a", "b"] }) }

def refSchema (r : String) : SchemaObject := { emptySO with reference := some r }

def defT : SchemaObject :=
  { emptySO with
    subschemas := some ({ emptySub with anyOf := some [.obj (refSchema "#/definitions/Missing")] }) }

def seqWithItems (it : SchemaObject) : SchemaObject :=
  { emptySO with instanceType := some (.single .array),
                 array := some ({ emptyArr with items := some (.single (.obj it)) }) }

def mkMeta (t : String) : Metadata := { title := some t, description := none }

def titled (t : String) (it : InstanceType) : SchemaObject :=
  { emptySO with metadata := some (mkMeta t),
                 instanceType := some (.single it) }

def oneOfBranches : List Schema :=
  [.obj (titled "b1" .integer), .obj (titled "b2" .string), .obj (titled "b3" .integer)]

def oneOfSchema : SchemaObject :=
  { emptySO with subschemas := some ({ emptySub with oneOf := some oneOfBranches }) }

def iteSub : Subschemas :=
  { emptySub with ifSchema := some (.bool false), elseSchema := some (.bool false) }

def iteSchema : SchemaObject := { emptySO with subschemas := some iteSub }

def iteThenSub : Subschemas :=
  { emptySub with ifSchema := some (.bool true), thenSchema := some (.bool false) }

def iteThenSchema : SchemaObject := { emptySO with subschemas := some iteThenSub }

end VerifyLib

namespace VerifyLib

def nestedClean : SchemaObject :=
  { emptySO with object := some ({ emptyObjV with properties :=
      [("a", .obj ({ emptySO with subschemas := some ({ emptySub with allOf := some [.obj intSchema, .bool true] }) }))] }) }

end VerifyLib

namespace VerifyLib

def tagObjV : ObjectValidation :=
  { emptyObjV with properties := [("known", .bool true)],
                   patternProperties := [("zz", .bool true)] }

def tagSchema : SchemaObject :=
  { emptySO with instanceType := some (.single .object), object := some tagObjV }

def tagCursor : Cursor := Cursor.new (.obj tagSchema)

/-- `HashMap::get` on the uniqueness table (by hash key). -/
def lookupNat : List (Nat × Option Keys) → Nat → Option (Option Keys)
  | [], _ => none
  | (k, w) :: rest, h => if k == h then some w else lookupNat rest h

def cReq : Cursor := { Cursor.new (.obj reqSchema) with objRequired := ["a", "b"] }

def cReqDone : Cursor :=
  { schema := .obj reqSchema, taggedAllow := false, parentSpan := none,
    span := some ["a"], combinedSpan := some ["a"], arrItemCount := 0, arrHashes := [],
    arrContains := none, objRequired := ["b"], objPropCount := 1, objLastKey := none,
    objLastKeySpan := some ["a"] }

/-! ## The spec-side tag lookup (for the `validate_tag` conformance claim) -/

/-- The first pattern property whose pattern matches the tag (patterns
assumed to compile). -/
def firstMatching (re : RegexEngine) : List (String × Schema) → String → Option Schema
  | [], _ => none
  | (pk, ps) :: rest, tag =>
    if re.isMatch pk tag then some ps else firstMatching re rest tag

/-- The lookup order stated by the spec for `validate_tag`: named
properties first, then pattern properties in declaration order, then
`additionalProperties`. -/
def tagLookup (re : RegexEngine) (obj : ObjectValidation) (tag : String) : Option Schema :=
  match lookupStr obj.properties tag with
  | some ps => some ps
  | none =>
    match firstMatching re obj.patternProperties tag with
    | some ps => some ps
    | none => obj.additionalProperties

/-- When every pattern key compiles, the pattern scan of `validate_tag`
selects exactly the first matching pattern's schema. -/
theorem tagPatterns_of_compiles (re : RegexEngine) (meta : Option Metadata)
    (ts : Option Keys) (l : List (String × Schema)) (tag : String)
    (h : ∀ pr ∈ l, re.compiles pr.1 = true) :
    tagPatterns re meta ts l tag = .ok (firstMatching re l tag) := by
  induction l with
  | nil => rfl
  | cons hd tl ih =>
    obtain ⟨pk, ps⟩ := hd
    have hc : re.compiles pk = true := h (pk, ps) (by simp)
    by_cases hm : re.isMatch pk tag
    · simp [tagPatterns, firstMatching, hc, hm]
    · simp only [tagPatterns, firstMatching, hc, if_true, hm, if_false]
      simp only [Bool.false_eq_true, if_false] at hm ⊢
      exact ih (fun pr hpr => h pr (List.mem_cons_of_mem _ hpr))

/-! ## Claim C1: combination of optional spans -/

/-- C1 counterexample: combining a present span with an absent incoming
span yields the absent span (reset), not the present one as the claim
states for the "exactly one present" case. -/
theorem c1_combine_counterexample :
    optCombine (some ["x"]) none = none ∧ (none : Option Keys) ≠ some ["x"] :=
  ⟨rfl, by simp⟩

/-- C1 (amended): combining two optional spans with `SpanExt::combine`
on `Option`: when both are present the result is their concatenation in
traversal order; when the receiver is absent and the incoming span
present, the result is the incoming span; when the incoming span is
absent the result is absent (a reset), regardless of the receiver. -/
theorem c1_combine_amended :
    (∀ a b : Keys, optCombine (some a) (some b) = some (a ++ b)) ∧
    (∀ b : Keys, optCombine none (some b) = some b) ∧
    (∀ s : Option Keys, optCombine s none = none) :=
  ⟨fun _ _ => rfl, fun _ => rfl, fun s => by cases s <;> rfl⟩

/-! ## Claim C4: reference resolution versus inlining -/

/-- C4 counterexample: validating a sequence against a schema whose
`items` is a local reference to definition `T` differs from validating
it against the schema with `T` inlined at the `items` site — the nested
error spans disagree (the reference run duplicates the element segment),
refuting "exactly the same result (same errors with the same spans)". -/
theorem c4_reference_inline_counterexample :
    verifyValueLevel simpleRegex 10
        { schema := seqWithItems (refSchema "#/definitions/T"),
          definitions := [("T", .obj defT)] } none (.seq [.int 0])
      ≠ verifyValueLevel simpleRegex 10
        { schema := seqWithItems defT,
          definitions := [("T", .obj defT)] } none (.seq [.int 0]) := by
  have hA : verifyValueLevel simpleRegex 10
      { schema := seqWithItems (refSchema "#/definitions/T"),
        definitions := [("T", .obj defT)] } none (.seq [.int 0])
    = some [.noneValid none (some ["0"]) false [none]
        [[.missingDefinition none (some ["0", "0"]) "Missing"]]] := rfl
  have hB : verifyValueLevel simpleRegex 10
      { schema := seqWithItems defT,
        definitions := [("T", .obj defT)] } none (.seq [.int 0])
    = some [.noneValid none (some ["0"]) false [none]
        [[.missingDefinition none (some ["0"]) "Missing"]]] := rfl
  rw [hA, hB]
  simp

/-- C4 (amended): a node carrying a resolvable local reference recurses
into the target definition with the parent span passed through
unchanged and the cursor span replaced by the value's own span (one
engine level is consumed).  The result therefore coincides with
inlining the target at the reference site exactly when the cursor span
at that site equals the value's span; in general the nested error spans
may differ, as the counterexample shows. -/
theorem c4_reference_unfolds (re : RegexEngine) (defs : Defs) (fuel : Nat)
    (so : SchemaObject) (r name : String) (target : Schema)
    (p s vs : Option Keys) (v : Value)
    (href : so.reference = some r) (hloc : localDefinition r = some name)
    (hdef : lookupStr defs name = some target) :
    validateLevel re defs (fuel + 1) (.obj so) p s vs v
      = validateLevel re defs fuel target p vs vs v := by
  simp [validateLevel, validateInnerStep, href, hloc, hdef]

/-- C4 witness: the unfolding theorem applied at a concrete document. -/
theorem c4_reference_unfolds_witness :
    validateLevel simpleRegex [("T", .obj defT)] 6
        (.obj (refSchema "#/definitions/T")) none (some ["w"]) none (.int 0)
      = validateLevel simpleRegex [("T", .obj defT)] 5 (.obj defT) none none none (.int 0) :=
  c4_reference_unfolds simpleRegex [("T", .obj defT)] 5 (refSchema "#/definitions/T")
    "#/definitions/T" "T" (.obj defT) none (some ["w"]) none (.int 0) rfl rfl rfl

/-! ## Claim C5: unresolved and external references are terminal -/

/-- C5: a node whose reference names a local definition absent from the
table yields exactly one `MissingDefinition` error, and a non-local
reference yields exactly one `ExternalReference` error — for every
value, every span context and every fuel, independently of the node's
combinators and instance type (no further checks on the node are
evaluated). -/
theorem c5_reference_errors (re : RegexEngine) (defs : Defs) (fuel : Nat)
    (so : SchemaObject) (r : String) (p s vs : Option Keys) (v : Value)
    (href : so.reference = some r) :
    (∀ name, localDefinition r = some name → lookupStr defs name = none →
       validateLevel re defs (fuel + 1) (.obj so) p s vs v
         = some [.missingDefinition so.metadata (optCombine (combineSpans p s) vs) name]) ∧
    (localDefinition r = none →
       validateLevel re defs (fuel + 1) (.obj so) p s vs v
         = some [.externalReference so.metadata (optCombine (combineSpans p s) vs) r]) := by
  constructor
  · intro name hloc hdef
    simp [validateLevel, validateInnerStep, href, hloc, hdef]
  · intro hloc
    simp [validateLevel, validateInnerStep, href, hloc]

/-- C5 witness: both reference failures at concrete inputs; the missing
case is exercised on two different values to witness "regardless of
what data is supplied". -/
theorem c5_reference_errors_witness :
    (verifyValueLevel simpleRegex 10
        { schema := refSchema "#/definitions/Missing", definitions := [] } none (.int 1)
       = some [.missingDefinition none none "Missing"]) ∧
    (verifyValueLevel simpleRegex 10
        { schema := refSchema "#/definitions/Missing", definitions := [] } none (.str "other")
       = some [.missingDefinition none none "Missing"]) ∧
    (verifyValueLevel simpleRegex 10
        { schema := refSchema "http://example.com/x.json", definitions := [] } none (.int 1)
       = some [.externalReference none none "http://example.com/x.json"]) :=
  ⟨(c5_reference_errors simpleRegex [] 9 (refSchema "#/definitions/Missing")
      "#/definitions/Missing" none none none (.int 1) rfl).1 "Missing" rfl rfl,
   (c5_reference_errors simpleRegex [] 9 (refSchema "#/definitions/Missing")
      "#/definitions/Missing" none none none (.str "other") rfl).1 "Missing" rfl rfl,
   (c5_reference_errors simpleRegex [] 9 (refSchema "http://example.com/x.json")
      "http://example.com/x.json" none none none (.int 1) rfl).2 rfl⟩

end VerifyLib

namespace VerifyLib

/-! ## Claim C2: oneOf exclusivity -/

/-- C2: for a node whose combinator group carries exactly a `oneOf`
list, with `va` the provenance list of the matching branches and `ie`
the per-branch error sets (as collected by the branch loop): exactly one
match produces no error; zero matches produce exactly one `NoneValid`
(exclusive) carrying the per-branch error sets; more than one match
produces exactly one `MoreThanOneValid` naming every matched branch's
provenance. -/
theorem c2_oneOf_exclusive (vi : ViFn) (so : SchemaObject) (sub : Subschemas)
    (l : List Schema) (p s vs : Option Keys) (v : Value)
    (va : List (Option Metadata)) (ie : List Errors)
    (hsub : so.subschemas = some sub)
    (hall : sub.allOf = none) (hany : sub.anyOf = none) (hone : sub.oneOf = some l)
    (hnot : sub.notSchema = none) (hif : sub.ifSchema = none)
    (hbr : branchRun (fun sch => vi sch p s vs v) l = some (va, ie)) :
    (va.length = 1 → validateSubschemasStep vi so p s vs v = some []) ∧
    (va = [] → validateSubschemasStep vi so p s vs v
       = some [.noneValid so.metadata vs true (l.map schemaMeta) ie]) ∧
    (1 < va.length → validateSubschemasStep vi so p s vs v
       = some [.moreThanOneValid so.metadata vs (l.map schemaMeta) va]) := by
  refine ⟨?_, ?_, ?_⟩
  · intro h1
    obtain ⟨a, ha⟩ : ∃ a, va = [a] := by
      cases va with
      | nil => simp at h1
      | cons a as =>
        cases as with
        | nil => exact ⟨a, rfl⟩
        | cons b bs => simp [List.length_cons] at h1
    subst ha
    unfold validateSubschemasStep
    rw [hsub]
    simp only [hall, hany, hone, hnot, hif, hbr, iteRun, notRun]
    simp
  · intro h0
    subst h0
    unfold validateSubschemasStep
    rw [hsub]
    simp only [hall, hany, hone, hnot, hif, hbr, iteRun, notRun]
    simp
  · intro h2
    obtain ⟨a, b, bs, ha⟩ : ∃ a b bs, va = a :: b :: bs := by
      cases va with
      | nil => simp at h2
      | cons a as =>
        cases as with
        | nil => simp at h2
        | cons b bs => exact ⟨a, b, bs, rfl⟩
    subst ha
    unfold validateSubschemasStep
    rw [hsub]
    simp only [hall, hany, hone, hnot, hif, hbr, iteRun, notRun]
    simp

/-- C2 witness: the three-branch fixture (titles b1, b2, b3).  An
integer matches branches 1 and 3: one `MoreThanOneValid` naming both
titles; a null value matches no branch: one `NoneValid` with the three
nested failure sets. -/
theorem c2_oneOf_exclusive_witness :
    (validateSubschemasStep (validateLevel simpleRegex [] 9) oneOfSchema none none none (.int 4)
       = some [.moreThanOneValid none none
           [some (mkMeta "b1"), some (mkMeta "b2"), some (mkMeta "b3")]
           [some (mkMeta "b1"), some (mkMeta "b3")]]) ∧
    (validateSubschemasStep (validateLevel simpleRegex [] 9) oneOfSchema none none none .null
       = some [.noneValid none none true
           [some (mkMeta "b1"), some (mkMeta "b2"), some (mkMeta "b3")]
           [[.invalidType (some (mkMeta "b1")) none (.single .integer)],
            [.invalidType (some (mkMeta "b2")) none (.single .string)],
            [.invalidType (some (mkMeta "b3")) none (.single .integer)]]]) :=
  ⟨(c2_oneOf_exclusive (validateLevel simpleRegex [] 9) oneOfSchema
      ({ emptySub with oneOf := some oneOfBranches }) oneOfBranches
      none none none (.int 4)
      [some (mkMeta "b1"), some (mkMeta "b3")]
      [[.invalidType (some (mkMeta "b2")) none (.single .string)]]
      rfl rfl rfl rfl rfl rfl rfl).2.2 (by decide),
   (c2_oneOf_exclusive (validateLevel simpleRegex [] 9) oneOfSchema
      ({ emptySub with oneOf := some oneOfBranches }) oneOfBranches
      none none none .null
      []
      [[.invalidType (some (mkMeta "b1")) none (.single .integer)],
       [.invalidType (some (mkMeta "b2")) none (.single .string)],
       [.invalidType (some (mkMeta "b3")) none (.single .integer)]]
      rfl rfl rfl rfl rfl rfl rfl).2.1 rfl⟩

/-! ## Claim C3: if/then/else -/

/-- C3 counterexample: a node with an `if` sub-schema that the value
fails, no `then`, and an `else` whose validation of the value produces
an error.  The claim predicts the `else` errors concatenate into the
result; the engine skips the whole construct when `then` is absent, so
the result is empty while the `else` validation is not. -/
theorem c3_ite_counterexample :
    validateSubschemasStep (validateLevel simpleRegex [] 9) iteSchema none none none (.int 0)
      = some []
    ∧ validateLevel simpleRegex [] 9 (.bool false) none none none (.int 0)
      = some [.notAllowed none none]
    ∧ ([VError.notAllowed none none] : Errors) ≠ [] :=
  ⟨rfl, rfl, by simp⟩

/-- C3 (amended): the `if`/`then`/`else` construct runs only when both
an `if` and a `then` sub-schema are present.  Then: on `if` success the
`then` errors are exactly the node's combinator result (the `if` outcome
itself contributes no error); on `if` failure the `else` errors (if an
`else` is present) are exactly the result, otherwise no error.  When the
`then` sub-schema is absent nothing is validated — in particular a
present `else` is ignored. -/
theorem c3_ite_amended (vi : ViFn) (so : SchemaObject) (sub : Subschemas)
    (p s vs : Option Keys) (v : Value)
    (hsub : so.subschemas = some sub)
    (hall : sub.allOf = none) (hany : sub.anyOf = none) (hone : sub.oneOf = none)
    (hnot : sub.notSchema = none) :
    (∀ i t, sub.ifSchema = some i → sub.thenSchema = some t →
       ((vi i p s vs v = some [] →
           validateSubschemasStep vi so p s vs v = vi t p s vs v) ∧
        (∀ e es, vi i p s vs v = some (e :: es) →
           validateSubschemasStep vi so p s vs v
             = (match sub.elseSchema with
                | some el => vi el p s vs v
                | none => some [])))) ∧
    (sub.thenSchema = none → validateSubschemasStep vi so p s vs v = some []) := by
  constructor
  · intro i t hi ht
    constructor
    · intro hok
      unfold validateSubschemasStep
      rw [hsub]
      simp only [hall, hany, hone, hnot, iteRun, hi, ht, hok, notRun]
      cases h : vi t p s vs v with
      | none => simp
      | some es => simp
    · intro e es herr
      unfold validateSubschemasStep
      rw [hsub]
      simp only [hall, hany, hone, hnot, iteRun, hi, ht, herr, notRun]
      cases helse : sub.elseSchema with
      | none => simp
      | some el =>
        cases h : vi el p s vs v with
        | none => simp
        | some es2 => simp
  · intro ht
    unfold validateSubschemasStep
    rw [hsub]
    simp only [hall, hany, hone, hnot, iteRun, ht, notRun]
    cases hi : sub.ifSchema <;> simp

/-- C3 witness: the amended behaviour at concrete inputs — a satisfied
`if` concatenates the `then` errors, and a node with no `then` but a
present `else` yields no error. -/
theorem c3_ite_amended_witness :
    (validateSubschemasStep (validateLevel simpleRegex [] 9) iteThenSchema none none none (.int 0)
       = validateLevel simpleRegex [] 9 (.bool false) none none none (.int 0)) ∧
    (validateSubschemasStep (validateLevel simpleRegex [] 9) iteSchema none none none (.int 0)
       = some []) :=
  ⟨((c3_ite_amended (validateLevel simpleRegex [] 9) iteThenSchema iteThenSub
       none none none (.int 0) rfl rfl rfl rfl rfl).1
      (.bool true) (.bool false) rfl rfl).1 rfl,
   (c3_ite_amended (validateLevel simpleRegex [] 9) iteSchema iteSub
      none none none (.int 0) rfl rfl rfl rfl rfl).2 rfl⟩

end VerifyLib

namespace VerifyLib

/-! ## Claim C6: tag lookup order and accept-everything mode -/

/-- C6: `validate_tag` on an object node (whose object type check
passes and whose pattern keys all compile) conforms to the spec's
lookup order — named properties first, then pattern properties in
declaration order, then `additionalProperties` — continuing with the
resolved schema on a hit and entering accept-everything mode on no hit.
Once a cursor is in accept-everything mode, every protocol call on it
(`validate_element`, `validate_key`, `validate_string_key`,
`validate_value`, both `end`s) succeeds with no errors and leaves the
cursor unchanged. -/
theorem c6_validateTag (re : RegexEngine) (c : Cursor) :
    (∀ so obj tag ts,
       c.schema = .obj so →
       checkType so.metadata c.combinedSpan so.instanceType .object = [] →
       so.object = some obj →
       (∀ pr ∈ obj.patternProperties, re.compiles pr.1 = true) →
       validateTag re c tag ts
         = .ok (match tagLookup re obj tag with
                | some sch => { c with schema := sch }
                | none => { c with taggedAllow := true })) ∧
    (c.taggedAllow = true →
       (∀ vi hashF x xs, validateElement vi hashF c x xs = some (c, [])) ∧
       (∀ ks, validateKey c ks = .ok ()) ∧
       (∀ vi k ks, validateStringKey vi c k ks = some (.ok c)) ∧
       (∀ re2 vi v vs, validateValueEntry re2 vi c v vs = some (c, [])) ∧
       seqEnd c = [] ∧ mapEnd c = []) := by
  constructor
  · intro so obj tag ts hsch hct hobj hcomp
    unfold validateTag
    rw [hsch]
    simp only [hct, List.isEmpty_nil, Bool.not_true, Bool.false_eq_true, if_false, hobj]
    unfold tagLookup
    cases hl : lookupStr obj.properties tag with
    | some ps => rfl
    | none =>
      rw [tagPatterns_of_compiles re so.metadata
        (combinedSpan c.parentSpan ts) obj.patternProperties tag hcomp]
      cases hfm : firstMatching re obj.patternProperties tag with
      | some ps => rfl
      | none =>
        cases hap : obj.additionalProperties with
        | some aps => rfl
        | none => rfl
  · intro hta
    refine ⟨?_, ?_, ?_, ?_, ?_, ?_⟩
    · intro vi hashF x xs
      simp [validateElement, hta]
    · intro ks
      simp [validateKey, hta]
    · intro vi k ks
      simp [validateStringKey, hta]
    · intro re2 vi v vs
      simp [validateValueEntry, hta]
    · simp [seqEnd, hta]
    · simp [mapEnd, hta]

end VerifyLib

namespace VerifyLib

/-- C6 witness: a tag matching no named property, no pattern property,
with no `additionalProperties`, puts the concrete cursor into
accept-everything mode, after which `end` and `validate_element`
contribute nothing. -/
theorem c6_validateTag_witness :
    (validateTag simpleRegex tagCursor "unknown" none
       = .ok ({ tagCursor with taggedAllow := true })) ∧
    (mapEnd ({ tagCursor with taggedAllow := true }) = []) ∧
    (validateElement (validateLevel simpleRegex [] 5) (hashLevel 5)
       ({ tagCursor with taggedAllow := true }) (.int 1) none
       = some ({ tagCursor with taggedAllow := true }, [])) :=
  ⟨(c6_validateTag simpleRegex tagCursor).1 tagSchema tagObjV "unknown" none rfl rfl rfl
     (by decide),
   ((c6_validateTag simpleRegex ({ tagCursor with taggedAllow := true })).2 rfl).2.2.2.2.2,
   ((c6_validateTag simpleRegex ({ tagCursor with taggedAllow := true })).2 rfl).1
     (validateLevel simpleRegex [] 5) (hashLevel 5) (.int 1) none⟩

end VerifyLib

namespace VerifyLib

/-! ## Claim C7: uniqueItems reports first and duplicate spans -/

/-- C7: under `uniqueItems`, the sequence `[1, 2, 1]` produces exactly
one `NotUnique` error whose stored span is the element span for index
`"0"` and whose duplicate span is the element span for index `"2"`; in
general, an element whose hash is already present in the uniqueness
table produces exactly one `NotUnique` error reporting the stored span
and the duplicate element's span. -/
theorem c7_uniqueItems :
    (verifyValueLevel simpleRegex 10
        { schema := uniqSchema, definitions := [] } none (.seq [.int 1, .int 2, .int 1])
       = some [.notUnique none (some ["2"]) (some ["0"]) (some ["2"])]) ∧
    (∀ (vi : ViFn) (hashF : Value → Nat) (c : Cursor) (so : SchemaObject)
       (arr : ArrayValidation) (x : Value) (xspan : Option Keys) (w : Option Keys),
       c.taggedAllow = false →
       c.schema = .obj so →
       so.array = some arr →
       arr.uniqueItems = some true →
       arr.items = none →
       c.arrContains = none →
       (assocInsert c.arrHashes (hashF x) (combinedSpan c.parentSpan xspan)).1 = some w →
       validateElement vi hashF c x xspan
         = some ({ c with arrItemCount := c.arrItemCount + 1,
                          arrHashes := (assocInsert c.arrHashes (hashF x)
                            (combinedSpan c.parentSpan xspan)).2 },
                 [.notUnique so.metadata (combinedSpan c.parentSpan xspan) w
                    (combinedSpan c.parentSpan xspan)])) := by
  constructor
  · rfl
  · intro vi hashF c so arr x xspan w hta hsch harr huniq hitems hcont hw
    unfold validateElement
    rw [hta]
    simp only [Bool.false_eq_true, if_false]
    rw [show ({ c with arrItemCount := c.arrItemCount + 1 } : Cursor).schema = c.schema from rfl,
       hsch]
    simp only [harr, hcont, hitems, huniq, hw]
    simp

/-- C7 witness: the collision conjunct applied to a concrete cursor
whose table already holds the hash of `1` at span `"0"`. -/
theorem c7_uniqueItems_witness :
    validateElement (validateLevel simpleRegex [] 9) (hashLevel 9)
        ({ Cursor.new (.obj uniqSchema) with
             arrItemCount := 2, arrHashes := [(hashLevel 9 (.int 1), some ["0"])] })
        (.int 1) (some ["2"])
      = some ({ Cursor.new (.obj uniqSchema) with
                  arrItemCount := 3, arrHashes := [(hashLevel 9 (.int 1), some ["2"])] },
              [.notUnique none (some ["2"]) (some ["0"]) (some ["2"])]) :=
  c7_uniqueItems.2 (validateLevel simpleRegex [] 9) (hashLevel 9)
    ({ Cursor.new (.obj uniqSchema) with
         arrItemCount := 2, arrHashes := [(hashLevel 9 (.int 1), some ["0"])] })
    uniqSchema ({ emptyArr with uniqueItems := some true }) (.int 1) (some ["2"])
    (some ["0"]) rfl rfl rfl rfl rfl rfl rfl

/-! ## Claim C10: the uniqueness table stores the latest occurrence -/

/-- C10: with an element equal three times, the second `NotUnique`
reports as its stored span the most recent previous occurrence (index
`"1"`), not the original first occurrence: the table insertion returns
the previously stored span and overwrites it with the latest
occurrence's span. -/
theorem c10_latest_occurrence :
    (verifyValueLevel simpleRegex 10
        { schema := uniqSchema, definitions := [] } none (.seq [.int 1, .int 1, .int 1])
       = some [.notUnique none (some ["1"]) (some ["0"]) (some ["1"]),
               .notUnique none (some ["2"]) (some ["1"]) (some ["2"])]) ∧
    (∀ table h sp, (assocInsert table h sp).1 = lookupNat table h) ∧
    (∀ table h sp, lookupNat (assocInsert table h sp).2 h = some sp) := by
  refine ⟨rfl, ?_, ?_⟩
  · intro table h sp
    induction table with
    | nil => rfl
    | cons hd tl ih =>
      obtain ⟨k, w⟩ := hd
      by_cases hk : (k == h) = true
      · simp [assocInsert, lookupNat, hk]
      · simp only [Bool.not_eq_true] at hk
        simp [assocInsert, lookupNat, hk, ih]
  · intro table h sp
    induction table with
    | nil => simp [assocInsert, lookupNat]
    | cons hd tl ih =>
      obtain ⟨k, w⟩ := hd
      by_cases hk : (k == h) = true
      · simp [assocInsert, lookupNat, hk]
      · simp only [Bool.not_eq_true] at hk
        simp [assocInsert, lookupNat, hk, ih]

end VerifyLib

namespace VerifyLib

/-! ## Bookkeeping lemmas for the map protocol (used for claim C8) -/

/-- `with_span` does not touch the bookkeeping fields of a cursor. -/
theorem withSpan_bookkeeping (c : Cursor) (s : Option Keys) :
    (c.withSpan s).taggedAllow = c.taggedAllow ∧ (c.withSpan s).schema = c.schema ∧
    (c.withSpan s).objRequired = c.objRequired := by
  cases s <;> exact ⟨rfl, rfl, rfl⟩

/-- A successful `validate_string_key` removes exactly its key from the
remaining-required set and preserves the schema and the accept-mode
flag. -/
theorem validateStringKey_ok (vi : ViFn) (c c' : Cursor) (k : String) (ks : Option Keys)
    (so : SchemaObject) (hta : c.taggedAllow = false) (hsch : c.schema = .obj so)
    (h : validateStringKey vi c k ks = some (.ok c')) :
    c'.objRequired = c.objRequired.filter (fun r => !(r == k)) ∧
    c'.schema = c.schema ∧ c'.taggedAllow = false := by
  unfold validateStringKey at h
  rw [hta] at h
  simp only [Bool.false_eq_true, if_false] at h
  try dsimp only at h
  rw [hsch] at h
  try dsimp only at h
  cases hobj : so.object with
  | none =>
    rw [hobj] at h
    simp only [Option.some.injEq, Except.ok.injEq] at h
    subst h
    refine ⟨rfl, ?_, ?_⟩ <;> simp_all
  | some obj =>
    rw [hobj] at h
    dsimp only at h
    cases hpn : obj.propertyNames with
    | none =>
      rw [hpn] at h
      simp only [Option.some.injEq, Except.ok.injEq] at h
      subst h
      refine ⟨rfl, ?_, ?_⟩ <;> simp_all
    | some ns =>
      rw [hpn] at h
      try dsimp only at h
      cases hvi : vi ns c.parentSpan (combinedSpan c.parentSpan ks) ks (.str k) with
      | none => rw [hvi] at h; simp at h
      | some r =>
        rw [hvi] at h
        cases r with
        | nil =>
          simp only [Option.some.injEq, Except.ok.injEq] at h
          subst h
          refine ⟨rfl, ?_, ?_⟩ <;> simp_all
        | cons e es => simp at h

/-- A completed `validate_value` preserves the remaining-required set,
the schema and the accept-mode flag. -/
theorem validateValueEntry_preserves (re : RegexEngine) (vi : ViFn) (c c' : Cursor)
    (v : Value) (vs : Option Keys) (es : Errors)
    (h : validateValueEntry re vi c v vs = some (c', es)) :
    c'.objRequired = c.objRequired ∧ c'.schema = c.schema ∧
    c'.taggedAllow = c.taggedAllow := by
  unfold validateValueEntry at h
  by_cases hta : c.taggedAllow = true
  · rw [hta] at h
    simp only [if_true, Option.some.injEq, Prod.mk.injEq] at h
    obtain ⟨rfl, rfl⟩ := h
    refine ⟨rfl, ?_, ?_⟩ <;> simp_all
  · simp only [Bool.not_eq_true] at hta
    rw [hta] at h
    simp only [Bool.false_eq_true, if_false] at h
    cases csch : c.schema with
    | bool b =>
      rw [csch] at h
      cases b with
      | true =>
        simp only [Option.some.injEq, Prod.mk.injEq] at h
        obtain ⟨rfl, rfl⟩ := h
        refine ⟨rfl, ?_, ?_⟩ <;> simp_all
      | false =>
        simp only [Option.some.injEq, Prod.mk.injEq] at h
        obtain ⟨rfl, rfl⟩ := h
        refine ⟨rfl, ?_, ?_⟩ <;> simp_all
    | obj so =>
      rw [csch] at h
      try dsimp only at h
      cases hlk : c.objLastKey with
      | none =>
        rw [hlk] at h
        simp only [Option.some.injEq, Prod.mk.injEq] at h
        obtain ⟨rfl, rfl⟩ := h
        refine ⟨rfl, ?_, ?_⟩ <;> simp_all
      | some key =>
        rw [hlk] at h
        try dsimp only at h
        cases hobj : so.object with
        | none =>
          rw [hobj] at h
          simp only [Option.some.injEq, Prod.mk.injEq] at h
          obtain ⟨rfl, rfl⟩ := h
          refine ⟨rfl, ?_, ?_⟩ <;> simp_all
        | some obj =>
          rw [hobj] at h
          try dsimp only at h
          cases hprop : lookupStr obj.properties key with
          | some ps =>
            rw [hprop] at h
            try dsimp only at h
            cases hvi : vi ps c.parentSpan none vs v with
            | none => rw [hvi] at h; simp at h
            | some r =>
              rw [hvi] at h
              simp at h
              obtain ⟨rfl, rfl⟩ := h
              refine ⟨rfl, ?_, ?_⟩ <;> simp_all
          | none =>
            rw [hprop] at h
            try dsimp only at h
            cases hpm : patternsValue re vi so.metadata obj.patternProperties key
                c.parentSpan vs v with
            | none => rw [hpm] at h; simp at h
            | some o =>
              rw [hpm] at h
              cases o with
              | some es2 =>
                simp only [Option.some.injEq, Prod.mk.injEq] at h
                obtain ⟨rfl, rfl⟩ := h
                refine ⟨rfl, ?_, ?_⟩ <;> simp_all
              | none =>
                try dsimp only at h
                cases hap : obj.additionalProperties with
                | none =>
                  rw [hap] at h
                  simp only [Option.some.injEq, Prod.mk.injEq] at h
                  obtain ⟨rfl, rfl⟩ := h
                  refine ⟨rfl, ?_, ?_⟩ <;> simp_all
                | some aps =>
                  rw [hap] at h
                  try dsimp only at h
                  cases hvi : vi aps c.parentSpan none vs v with
                  | none => rw [hvi] at h; simp at h
                  | some r =>
                    rw [hvi] at h
                    cases r with
                    | nil =>
                      simp only [Option.some.injEq, Prod.mk.injEq] at h
                      obtain ⟨rfl, rfl⟩ := h
                      refine ⟨rfl, ?_, ?_⟩ <;> simp_all
                    | cons e rest =>
                      try dsimp only at h
                      by_cases hne : e.isNeverErr = true
                      · rw [hne] at h
                        simp only [if_true, Option.some.injEq, Prod.mk.injEq] at h
                        obtain ⟨rfl, rfl⟩ := h
                        refine ⟨rfl, ?_, ?_⟩ <;> simp_all
                      · simp only [Bool.not_eq_true] at hne
                        rw [hne] at h
                        simp only [Bool.false_eq_true, if_false, Option.some.injEq,
                          Prod.mk.injEq] at h
                        obtain ⟨rfl, rfl⟩ := h
                        refine ⟨rfl, ?_, ?_⟩ <;> simp_all

end VerifyLib

namespace VerifyLib

/-- Completing the entry loop without an abort removes exactly the
processed keys from the remaining-required set (and preserves the
schema and accept-mode flag). -/
theorem mapEntries_required (re : RegexEngine) (vi : ViFn) (so : SchemaObject) :
    ∀ (es : List (String × Value)) (c c2 : Cursor) (errs : Errors),
      c.taggedAllow = false →
      c.schema = .obj so →
      mapEntries re vi c es = some (c2, errs, false) →
      c2.objRequired = c.objRequired.filter (fun r => es.all (fun e => !(r == e.1))) ∧
      c2.taggedAllow = false ∧ c2.schema = .obj so
  | [], c, c2, errs, hta, hsch, h => by
    unfold mapEntries at h
    simp only [Option.some.injEq, Prod.mk.injEq] at h
    obtain ⟨rfl, rfl, _⟩ := h
    refine ⟨?_, hta, hsch⟩
    simp
  | (k, v) :: rest, c, c2, errs, hta, hsch, h => by
    unfold mapEntries at h
    try dsimp only at h
    have hbk := withSpan_bookkeeping c (some [k])
    have hta1 : (c.withSpan (some [k])).taggedAllow = false := hbk.1.trans hta
    have hsch1 : (c.withSpan (some [k])).schema = .obj so := hbk.2.1.trans hsch
    rw [hta1] at h
    simp only [Bool.false_eq_true, if_false] at h
    cases hk : validateStringKey vi (c.withSpan (some [k])) k (some [k]) with
    | none => rw [hk] at h; simp at h
    | some r =>
      rw [hk] at h
      cases r with
      | error es2 => simp at h
      | ok c3 =>
        try dsimp only at h
        cases hv : validateValueEntry re vi c3 v (some [k]) with
        | none => rw [hv] at h; simp at h
        | some p =>
          rw [hv] at h
          obtain ⟨c4, es4⟩ := p
          try dsimp only at h
          cases hrest : mapEntries re vi c4 rest with
          | none => rw [hrest] at h; simp at h
          | some q =>
            rw [hrest] at h
            obtain ⟨c5, es5, ab⟩ := q
            simp only [Option.some.injEq, Prod.mk.injEq] at h
            obtain ⟨rfl, rfl, hab⟩ := h
            have hsk := validateStringKey_ok vi (c.withSpan (some [k])) c3 k (some [k])
              so hta1 hsch1 hk
            have hvp := validateValueEntry_preserves re vi c3 c4 v (some [k]) es4 hv
            have hta4 : c4.taggedAllow = false := hvp.2.2.trans hsk.2.2
            have hsch4 : c4.schema = .obj so := hvp.2.1.trans (hsk.2.1.trans hsch1)
            subst hab
            have ih := mapEntries_required re vi so rest c4 c5 es5 hta4 hsch4 hrest
            refine ⟨?_, ih.2.1, ih.2.2⟩
            rw [ih.1, hvp.1, hsk.1, hbk.2.2]
            rw [List.filter_filter]
            simp only [List.all_cons]
            exact List.filter_congr (fun a _ => Bool.and_comm _ _)
  termination_by es => es.length

/-- `ValidateMap::end` on a cursor without property-count bounds
reports exactly the names remaining in the required set. -/
theorem mapEnd_required (c : Cursor) (so : SchemaObject) (obj : ObjectValidation)
    (hta : c.taggedAllow = false) (hsch : c.schema = .obj so) (hobj : so.object = some obj)
    (hmax : obj.maxProperties = none) (hmin : obj.minProperties = none) :
    mapEnd c = c.objRequired.map (fun p => .requiredProperty so.metadata c.combinedSpan p) := by
  unfold mapEnd
  rw [hta]
  simp only [Bool.false_eq_true, if_false]
  rw [hsch]
  try dsimp only
  rw [hobj]
  simp [hmax, hmin]

/-! ## Claim C8: required properties are reported at map end -/

/-- C8: the schema requiring `["a", "b"]` rejects `{"a": 1}` with
exactly one `RequiredProperty` error naming `"b"`; completing the entry
loop removes exactly every entry's key from the remaining-required set;
and the map sub-validator's `end` (invoked once by the traversal, after
the entries) is where the remaining required names are reported, one
`RequiredProperty` each. -/
theorem c8_requiredProperties :
    (verifyValueLevel simpleRegex 10
        { schema := reqSchema, definitions := [] } none (.map [("a", .int 1)])
       = some [.requiredProperty none none "b"]) ∧
    (∀ (re : RegexEngine) (vi : ViFn) (so : SchemaObject) (es : List (String × Value))
       (c c2 : Cursor) (errs : Errors),
       c.taggedAllow = false → c.schema = .obj so →
       mapEntries re vi c es = some (c2, errs, false) →
       c2.objRequired = c.objRequired.filter (fun r => es.all (fun e => !(r == e.1)))) ∧
    (∀ (c : Cursor) (so : SchemaObject) (obj : ObjectValidation),
       c.taggedAllow = false → c.schema = .obj so → so.object = some obj →
       obj.maxProperties = none → obj.minProperties = none →
       mapEnd c = c.objRequired.map (fun p =>
         .requiredProperty so.metadata c.combinedSpan p)) :=
  ⟨rfl,
   fun re vi so es c c2 errs hta hsch h =>
     (mapEntries_required re vi so es c c2 errs hta hsch h).1,
   fun c so obj hta hsch hobj hmax hmin =>
     mapEnd_required c so obj hta hsch hobj hmax hmin⟩

/-- C8 witness: the threading and end-reporting conjuncts at concrete
inputs — processing the single entry `"a"` removes exactly `"a"` from
the required set `["a", "b"]`, and `end` on the remaining set `["b"]`
reports exactly `RequiredProperty "b"`. -/
theorem c8_requiredProperties_witness :
    (cReqDone.objRequired
       = (["a", "b"] : List String).filter
           (fun r => [("a", Value.int 1)].all (fun e => !(r == e.1)))) ∧
    (mapEnd ({ Cursor.new (.obj reqSchema) with objRequired := ["b"] })
       = [.requiredProperty none none "b"]) :=
  ⟨c8_requiredProperties.2.1 simpleRegex (validateLevel simpleRegex [] 5) reqSchema
     [("a", .int 1)] cReq cReqDone [] rfl rfl rfl,
   c8_requiredProperties.2.2 ({ Cursor.new (.obj reqSchema) with objRequired := ["b"] })
     reqSchema ({ emptyObjV with required := ["a", "b"] }) rfl rfl rfl rfl rfl⟩

end VerifyLib

namespace VerifyLib

/-! ## Claim C9: the self-check pass on reference-free, pattern-free documents -/

/-- A string group without a pattern contributes no self-check error. -/
theorem stringPatternErrs_none (re : RegexEngine) (strv : Option StringValidation)
    (span : Keys) (h : noPatternStr strv = true) : stringPatternErrs re strv span = [] := by
  cases strv with
  | none => rfl
  | some sv =>
    unfold noPatternStr at h
    rw [Option.isNone_iff_eq_none] at h
    unfold stringPatternErrs
    dsimp only
    rw [h]

mutual

/-- A schema with no references and no regex-bearing fields passes the
self-check with no errors, at every document location. -/
theorem verifySchema_noRefPat (re : RegexEngine) (defs : Defs) :
    ∀ (s : Schema) (span : Keys), noRefPat s = true → verifySchema re defs s span = []
  | .bool _, _, _ => rfl
  | .obj o, span, h => verifySchemaObject_noRefPat re defs o span h

/-- The object-node case of `verifySchema_noRefPat`. -/
theorem verifySchemaObject_noRefPat (re : RegexEngine) (defs : Defs) :
    ∀ (o : SchemaObject) (span : Keys),
      noRefPatObj o = true → verifySchemaObject re defs o span = []
  | ⟨mta, it, ev, num, strv, arr, objv, subs, ref⟩, span, h => by
    rw [noRefPatObj.eq_def] at h
    dsimp only at h
    simp only [Bool.and_eq_true] at h
    obtain ⟨⟨⟨⟨href, hstr⟩, _⟩, hobjv⟩, hsubs⟩ := h
    rw [Option.isNone_iff_eq_none] at href
    subst href
    rw [verifySchemaObject.eq_def]
    dsimp only
    rw [verifySubsPart_noRefPat re defs subs span hsubs,
       verifyObjPart_noRefPat re defs objv span hobjv,
       stringPatternErrs_none re strv span hstr]
    rfl

/-- The combinator-group case of `verifySchema_noRefPat`. -/
theorem verifySubsPart_noRefPat (re : RegexEngine) (defs : Defs) :
    ∀ (subs : Option Subschemas) (span : Keys),
      noRefPatSubs subs = true → verifySubsPart re defs subs span = []
  | none, _, _ => rfl
  | some ⟨allOf, anyOf, oneOf, notS, ifS, thenS, elseS⟩, span, h => by
    rw [noRefPatSubs.eq_def] at h
    dsimp only at h
    simp only [Bool.and_eq_true] at h
    obtain ⟨⟨⟨⟨⟨⟨hall, hany⟩, hone⟩, hnot⟩, hif⟩, hthen⟩, helse⟩ := h
    rw [verifySubsPart.eq_def]
    dsimp only
    rw [verifyOptList_noRefPat re defs allOf span "allOf" hall,
       verifyOptList_noRefPat re defs oneOf span "oneOf" hone,
       verifyOptList_noRefPat re defs anyOf span "anyOf" hany,
       verifyOpt_noRefPat re defs notS (span ++ ["not"]) hnot,
       verifyOpt_noRefPat re defs ifS (span ++ ["if"]) hif,
       verifyOpt_noRefPat re defs thenS (span ++ ["then"]) hthen,
       verifyOpt_noRefPat re defs elseS (span ++ ["else"]) helse]
    rfl

/-- The object-group case of `verifySchema_noRefPat`. -/
theorem verifyObjPart_noRefPat (re : RegexEngine) (defs : Defs) :
    ∀ (objv : Option ObjectValidation) (span : Keys),
      noRefPatObjPart objv = true → verifyObjPart re defs objv span = []
  | none, _, _ => rfl
  | some ⟨mx, mn, req, props, patProps, addProps, propNames⟩, span, h => by
    rw [noRefPatObjPart.eq_def] at h
    dsimp only at h
    simp only [Bool.and_eq_true] at h
    obtain ⟨⟨⟨hpat, hprops⟩, haddp⟩, _⟩ := h
    rw [List.isEmpty_iff] at hpat
    subst hpat
    rw [verifyObjPart.eq_def]
    dsimp only
    rw [verifyProps_noRefPat re defs props span hprops,
       verifyOpt_noRefPat re defs addProps (span ++ ["additionalProperties"]) haddp]
    rfl

/-- The optional-position case of `verifySchema_noRefPat`. -/
theorem verifyOpt_noRefPat (re : RegexEngine) (defs : Defs) :
    ∀ (x : Option Schema) (span : Keys),
      noRefPatOpt x = true → verifyOpt re defs x span = []
  | none, _, _ => rfl
  | some s, span, h => verifySchema_noRefPat re defs s span h

/-- The optional-list case of `verifySchema_noRefPat`. -/
theorem verifyOptList_noRefPat (re : RegexEngine) (defs : Defs) :
    ∀ (x : Option (List Schema)) (span : Keys) (label : String),
      noRefPatOptList x = true → verifyOptList re defs x span label = []
  | none, _, _, _ => rfl
  | some l, span, label, h => verifySchemaList_noRefPat re defs l span label 0 h

/-- The combinator-list case of `verifySchema_noRefPat`. -/
theorem verifySchemaList_noRefPat (re : RegexEngine) (defs : Defs) :
    ∀ (l : List Schema) (span : Keys) (label : String) (i : Nat),
      noRefPatList l = true → verifySchemaList re defs l span label i = []
  | [], _, _, _, _ => rfl
  | s :: rest, span, label, i, h => by
    rw [noRefPatList.eq_def] at h
    dsimp only at h
    simp only [Bool.and_eq_true] at h
    rw [verifySchemaList.eq_def]
    dsimp only
    rw [verifySchema_noRefPat re defs s (span ++ [label, toString i]) h.1,
       verifySchemaList_noRefPat re defs rest span label (i + 1) h.2]
    rfl

/-- The property-list case of `verifySchema_noRefPat`. -/
theorem verifyProps_noRefPat (re : RegexEngine) (defs : Defs) :
    ∀ (l : List (String × Schema)) (span : Keys),
      noRefPatProps l = true → verifyProps re defs l span = []
  | [], _, _ => rfl
  | (k, s) :: rest, span, h => by
    rw [noRefPatProps.eq_def] at h
    dsimp only at h
    simp only [Bool.and_eq_true] at h
    rw [verifyProps.eq_def]
    dsimp only
    rw [verifySchema_noRefPat re defs s (span ++ ["properties", k]) h.1,
       verifyProps_noRefPat re defs rest span h.2]
    rfl

end

/-- The definitions-table loop of the self-check reports nothing on a
clean table. -/
theorem verifyDefinitions_noRefPat (re : RegexEngine) (defs : Defs) :
    ∀ (l : Defs), noRefPatProps l = true → verifyDefinitions re defs l = []
  | [], _ => rfl
  | (k, s) :: rest, h => by
    rw [noRefPatProps.eq_def] at h
    dsimp only at h
    simp only [Bool.and_eq_true] at h
    rw [verifyDefinitions.eq_def]
    dsimp only
    rw [verifySchema_noRefPat re defs s ["definitions", k] h.1,
       verifyDefinitions_noRefPat re defs rest h.2]
    rfl

/-- C9: the self-check pass returns empty-error success on every schema
document that contains no references and no regex-bearing fields,
regardless of the nesting depth of its combinators, properties,
`additionalProperties` and definitions. -/
theorem c9_selfCheck (re : RegexEngine) (root : RootSchema)
    (h : noRefPatRoot root = true) : verifyRoot re root = [] := by
  unfold noRefPatRoot at h
  simp only [Bool.and_eq_true] at h
  unfold verifyRoot
  rw [verifyDefinitions_noRefPat re root.definitions root.definitions h.2,
     verifySchemaObject_noRefPat re root.definitions root.schema [] h.1]
  rfl

/-- C9 witness: a concrete document with nested combinators,
properties and a definitions entry. -/
theorem c9_selfCheck_witness :
    verifyRoot simpleRegex { schema := nestedClean, definitions := [("d", .obj intSchema)] }
      = [] :=
  c9_selfCheck simpleRegex
    { schema := nestedClean, definitions := [("d", .obj intSchema)] } rfl

end VerifyLib
